import Mathlib

/-!
Verification development for `tax_watch.py`, a tax-law publication watcher:
it polls configured RSS/HTML sources, filters candidate items by keyword
relevance (title first, then a best-effort body fetch), deduplicates against
a persisted set of already-notified identities, pushes a chunked digest to a
notification sink, and commits the grown identity set.

The Python source is shallowly embedded below.  External libraries
(`requests`, `BeautifulSoup`, `feedparser`, `urljoin`) are modelled as an
explicit `World` of oracles supplying their observable results; pure library
functions used by the core logic (`hashlib.sha256`, `str.strip`,
`str.splitlines`) are implemented faithfully.  The digest-formatting line
calls `textwrap.shorten(title, 200, '…')` with a positional placeholder,
which raises `TypeError` in Python; that raising call and the resulting
uncaught-exception abort of `main` are embedded as an `Except` error path.
-/

set_option maxRecDepth 100000

namespace TaxWatch

/-! ### Python string primitives -/

/-- Characters stripped by Python's default `str.strip()` / `str.rstrip()`
(`str.isspace` characters: ASCII whitespace, the C1 controls `\x1c`-`\x1f`,
NEL, NBSP, the Unicode `Zs`/`Zl`/`Zp` spaces). -/
def isPySpace (c : Char) : Bool :=
  c = ' ' ∨ c = '\t' ∨ c = '\n' ∨ c = '\r' ∨ c = '\x0b' ∨ c = '\x0c' ∨
  c = '\x1c' ∨ c = '\x1d' ∨ c = '\x1e' ∨ c = '\x1f' ∨ c = '\x85' ∨ c = '\xa0' ∨
  (0x2000 ≤ c.toNat ∧ c.toNat ≤ 0x200a) ∨ c = ' ' ∨
  c = ' ' ∨ c = ' ' ∨ c = ' ' ∨ c = ' ' ∨ c = '　'

/-- Python `s.strip()` on the underlying character list: drop leading and
trailing whitespace. -/
def stripChars (l : List Char) : List Char :=
  (l.dropWhile isPySpace).rdropWhile isPySpace

/-- Python `s.strip()`. -/
def pyStrip (s : String) : String := String.mk (stripChars s.data)

/-- Python `s.rstrip()`: drop trailing whitespace only. -/
def pyRstrip (s : String) : String := String.mk (s.data.rdropWhile isPySpace)

/-- Python `s.lower()`, restricted to ASCII case mapping.  (Python lowers the
full Unicode range; the keyword list is Korean — unaffected by case — plus
already-lowercase ASCII, so only the ASCII mapping is observable here.) -/
def pyLower (s : String) : String := String.mk (s.data.map Char.toLower)

/-- Does `needle` occur contiguously somewhere in `hay`? -/
def containsSub (needle : List Char) : List Char → Bool
  | [] => needle.isEmpty
  | c :: rest => needle.isPrefixOf (c :: rest) || containsSub needle rest

/-- Python `needle in hay` on strings: contiguous substring test. -/
def strContains (hay needle : String) : Bool := containsSub needle.data hay.data

/-! ### SHA-256 (`hashlib.sha256`), over byte lists, words as `Nat` mod 2^32 -/

/-- Truncate to a 32-bit word. -/
def w32 (x : Nat) : Nat := x % 4294967296

/-- Right rotation of a 32-bit word. -/
def rotr (n x : Nat) : Nat := w32 ((x >>> n) ||| (x <<< (32 - n)))

def bsig0 (x : Nat) : Nat := rotr 2 x ^^^ rotr 13 x ^^^ rotr 22 x

def bsig1 (x : Nat) : Nat := rotr 6 x ^^^ rotr 11 x ^^^ rotr 25 x

def ssig0 (x : Nat) : Nat := rotr 7 x ^^^ rotr 18 x ^^^ (x >>> 3)

def ssig1 (x : Nat) : Nat := rotr 17 x ^^^ rotr 19 x ^^^ (x >>> 10)

def chF (e f g : Nat) : Nat := (e &&& f) ^^^ ((4294967295 ^^^ e) &&& g)

def majF (a b c : Nat) : Nat := (a &&& b) ^^^ (a &&& c) ^^^ (b &&& c)

/-- The eight-word SHA-256 working state. -/
structure Hash8 where
  a : Nat
  b : Nat
  c : Nat
  d : Nat
  e : Nat
  f : Nat
  g : Nat
  h : Nat
deriving Repr, DecidableEq

def sha256Init : Hash8 :=
  ⟨1779033703, 3144134277, 1013904242, 2773480762,
   1359893119, 2600822924, 528734635, 1541459225⟩

def sha256K : List Nat :=
  [1116352408, 1899447441, 3049323471, 3921009573,
   961987163, 1508970993, 2453635748, 2870763221,
   3624381080, 310598401, 607225278, 1426881987,
   1925078388, 2162078206, 2614888103, 3248222580,
   3835390401, 4022224774, 264347078, 604807628,
   770255983, 1249150122, 1555081692, 1996064986,
   2554220882, 2821834349, 2952996808, 3210313671,
   3336571891, 3584528711, 113926993, 338241895,
   666307205, 773529912, 1294757372, 1396182291,
   1695183700, 1986661051, 2177026350, 2456956037,
   2730485921, 2820302411, 3259730800, 3345764771,
   3516065817, 3600352804, 4094571909, 275423344,
   430227734, 506948616, 659060556, 883997877,
   958139571, 1322822218, 1537002063, 1747873779,
   1955562222, 2024104815, 2227730452, 2361852424,
   2428436474, 2756734187, 3204031479, 3329325298]

/-- Group a byte list into big-endian 32-bit words. -/
def bytesToWords : List Nat → List Nat
  | b0 :: b1 :: b2 :: b3 :: rest =>
      ((b0 <<< 24) ||| (b1 <<< 16) ||| (b2 <<< 8) ||| b3) :: bytesToWords rest
  | _ => []

/-- Extend the 16 message words to the 64-entry message schedule. -/
def sha256Schedule (ws : List Nat) : List Nat :=
  ((List.range 48).foldl
    (fun (a : Array Nat) i =>
      a.push (w32 (ssig1 (a.getD (i + 14) 0) + a.getD (i + 9) 0 +
                   ssig0 (a.getD (i + 1) 0) + a.getD i 0)))
    ws.toArray).toList

/-- One SHA-256 compression round. -/
def sha256Round (st : Hash8) (kw : Nat × Nat) : Hash8 :=
  let t1 := st.h + bsig1 st.e + chF st.e st.f st.g + kw.1 + kw.2
  let t2 := bsig0 st.a + majF st.a st.b st.c
  ⟨w32 (t1 + t2), st.a, st.b, st.c, w32 (st.d + t1), st.e, st.f, st.g⟩

/-- Process one 64-byte block. -/
def sha256Block (h0 : Hash8) (block : List Nat) : Hash8 :=
  let ws := sha256Schedule (bytesToWords block)
  let st := (sha256K.zip ws).foldl sha256Round h0
  ⟨w32 (h0.a + st.a), w32 (h0.b + st.b), w32 (h0.c + st.c), w32 (h0.d + st.d),
   w32 (h0.e + st.e), w32 (h0.f + st.f), w32 (h0.g + st.g), w32 (h0.h + st.h)⟩

/-- Split a byte list into 64-byte blocks. -/
def blocks64 : List Nat → List (List Nat)
  | [] => []
  | x :: xs => ((x :: xs).take 64) :: blocks64 ((x :: xs).drop 64)
termination_by l => l.length
decreasing_by simp [List.length_drop]; omega

/-- SHA-256 padding: `0x80`, zeros to 56 mod 64, then the 64-bit big-endian
bit length. -/
def sha256Pad (msg : List Nat) : List Nat :=
  let L := 8 * msg.length
  msg ++ [0x80] ++ List.replicate ((119 - msg.length % 64) % 64) 0 ++
  [(L >>> 56) &&& 255, (L >>> 48) &&& 255, (L >>> 40) &&& 255,
   (L >>> 32) &&& 255, (L >>> 24) &&& 255, (L >>> 16) &&& 255,
   (L >>> 8) &&& 255, L &&& 255]

/-- Big-endian bytes of one 32-bit word. -/
def wordBytes (w : Nat) : List Nat :=
  [(w >>> 24) &&& 255, (w >>> 16) &&& 255, (w >>> 8) &&& 255, w &&& 255]

/-- The 32 digest bytes of a final state. -/
def digestBytes (st : Hash8) : List Nat :=
  wordBytes st.a ++ wordBytes st.b ++ wordBytes st.c ++ wordBytes st.d ++
  wordBytes st.e ++ wordBytes st.f ++ wordBytes st.g ++ wordBytes st.h

/-- SHA-256 of a byte list: the 32 digest bytes. -/
def sha256 (msg : List Nat) : List Nat :=
  digestBytes ((blocks64 (sha256Pad msg)).foldl sha256Block sha256Init)

/-- Lowercase hex digit. -/
def hexDigit (n : Nat) : Char :=
  if n < 10 then Char.ofNat (48 + n) else Char.ofNat (87 + n)

/-- Lowercase hex characters of a byte list (`hexdigest`). -/
def hexChars (l : List Nat) : List Char :=
  l.foldr (fun b acc => hexDigit (b / 16) :: hexDigit (b % 16) :: acc) []

/-- UTF-8 bytes of one character, as Python `str.encode("utf-8")` produces. -/
def utf8Char (c : Char) : List Nat :=
  let n := c.toNat
  if n < 0x80 then [n]
  else if n < 0x800 then [0xc0 ||| (n >>> 6), 0x80 ||| (n &&& 0x3f)]
  else if n < 0x10000 then
    [0xe0 ||| (n >>> 12), 0x80 ||| ((n >>> 6) &&& 0x3f), 0x80 ||| (n &&& 0x3f)]
  else
    [0xf0 ||| (n >>> 18), 0x80 ||| ((n >>> 12) &&& 0x3f),
     0x80 ||| ((n >>> 6) &&& 0x3f), 0x80 ||| (n &&& 0x3f)]

/-- UTF-8 encoding of a string. -/
def utf8 (s : String) : List Nat :=
  s.data.foldr (fun c acc => utf8Char c ++ acc) []

/-- The string hashed by `make_id`: `title.strip() + "|" + url.strip()`. -/
def idPreimage (title url : String) : String :=
  pyStrip title ++ "|" ++ pyStrip url

/-- `make_id(title, url)`: first 16 hex characters of the SHA-256 of
`title.strip() + "|" + url.strip()` (UTF-8 encoded). -/
def make_id (title url : String) : String :=
  String.mk ((hexChars (sha256 (utf8 (idPreimage title url)))).take 16)

/-! ### Keywords and relevance matching -/

/-- The keyword list `KEYWORDS` from the source (Korean tax-law terms plus
three English phrases), matched case-insensitively as substrings. -/
def KEYWORDS : List String :=
  ["세법", "개정", "고시", "보도자료", "예규", "해석", "사전답변", "판례",
   "법인세", "부가세", "부가가치세", "소득세", "원천세", "지방세",
   "감면", "공제", "가산세", "전자신고", "연말정산",
   "transfer pricing", "withholding", "international tax"]

/-- `match_keywords(text)`: false on empty text, otherwise true iff some
keyword, lower-cased, is a substring of the lower-cased text. -/
def match_keywords (text : String) : Bool :=
  if text = "" then false
  else KEYWORDS.any (fun kw => strContains (pyLower text) (pyLower kw))

/-! ### `chunk`: line-based chunking of the digest body -/

/-- Line-break characters recognised by Python `str.splitlines`. -/
def isLineBreak (c : Char) : Bool :=
  c = '\n' ∨ c = '\r' ∨ c = '\x0b' ∨ c = '\x0c' ∨
  c = '\x1c' ∨ c = '\x1d' ∨ c = '\x1e' ∨ c = '\x85' ∨
  c = ' ' ∨ c = ' '

/-- Worker for `splitlines`: `acc` holds the current line reversed. -/
def splitLinesAux : List Char → List Char → List String
  | [], acc => if acc.isEmpty then [] else [String.mk acc.reverse]
  | '\r' :: '\n' :: rest, acc => String.mk acc.reverse :: splitLinesAux rest []
  | c :: rest, acc =>
      if isLineBreak c then String.mk acc.reverse :: splitLinesAux rest []
      else splitLinesAux rest (c :: acc)

/-- Python `s.splitlines()`: split at line-break characters (with `\r\n`
counting as a single break); a trailing break does not open an empty final
line, and the empty string has no lines. -/
def splitlines (s : String) : List String := splitLinesAux s.data []

/-- The loop body state of `chunk`: remaining lines, current chunk `cur`,
emitted chunks `out` (in order). -/
def chunkLoop (maxlen : Nat) : List String → String → List String → List String
  | [], cur, out => if cur = "" then out else out ++ [pyRstrip cur]
  | line :: rest, cur, out =>
      let add := line ++ "\n"
      if cur.length + add.length > maxlen ∧ cur ≠ "" then
        chunkLoop maxlen rest add (out ++ [pyRstrip cur])
      else
        chunkLoop maxlen rest (cur ++ add) out

/-- `chunk(s, maxlen=1500)`: accumulate whole lines (each with a trailing
newline re-appended) into chunks of at most `maxlen` characters, right-strip
each emitted chunk, and fall back to the placeholder `["(empty)"]` when no
chunk was produced. -/
def chunk (s : String) (maxlen : Nat := 1500) : List String :=
  let out := chunkLoop maxlen (splitlines s) "" []
  if out = [] then ["(empty)"] else out

/-! ### `textwrap.shorten` called with a positional placeholder -/

/-- `textwrap.shorten(text, width, placeholder)` called with three
positional arguments, exactly as the digest-formatting line of `main` does.
Python's `textwrap.shorten` has signature `shorten(text, width, **kwargs)`:
it accepts only two positional arguments, so this call raises `TypeError`
at argument-binding time, before any shortening work happens. -/
def shortenPositional (_text : String) (_width : Nat) (_placeholder : String) :
    Except String String :=
  Except.error "TypeError: shorten() takes 2 positional arguments but 3 were given"

/-! ### Data model -/

/-- Source kind tag (the `"type"` field: `"rss"` or `"html"`). -/
inductive SrcKind where
  | rss
  | html
deriving Repr, DecidableEq

/-- A source descriptor from the `SOURCES` configuration list. -/
structure Src where
  name : String
  kind : SrcKind
  url : String
  item_selector : Option String
  base : Option String
deriving Repr, DecidableEq

/-- A candidate item `{title, url, summary}` produced by a source adapter. -/
structure Item where
  title : String
  url : String
  summary : String
deriving Repr, DecidableEq

/-- A feed entry as `feedparser` exposes it: each field may be absent
(`getattr(e, _, "")` default). -/
structure Entry where
  title : Option String
  link : Option String
  summary : Option String
  description : Option String
deriving Repr, DecidableEq

/-- One anchor element as selected by `soup.select(sel)`: its extracted
visible text (`a.get_text(" ", strip=True)`) and its href attribute
(`a.get("href","")`; a missing attribute yields `""`). -/
structure Anchor where
  text : String
  href : String
deriving Repr, DecidableEq

/-- The observable outcome of a successful secondary `requests.get`:
the status flag `rt.ok` and the visible text that `BeautifulSoup(...)
.get_text(" ", strip=True)` extracts from the response. -/
structure Resp where
  ok : Bool
  body : String
deriving Repr, DecidableEq

/-- A notification record appended to `hits`. -/
structure Hit where
  id : String
  title : String
  url : String
  src : String
deriving Repr, DecidableEq

/-- The environment of one run: every external effect the program consumes,
as deterministic oracles.  `feedAvail` is whether the `feedparser` import
succeeded; `feedEntries`/`listing`/`secondary` return `Except` to model
raised exceptions (network errors, non-success status via
`raise_for_status`, parse failures); `urljoin` is `urllib`'s URL resolver
treated as an external pure function; `deliver` is the outcome of the ntfy
POST; `today` is the formatted KST date string. -/
structure World where
  feedAvail : Bool
  feedEntries : String → Except String (List Entry)
  listing : String → String → Except String (List Anchor)
  urljoin : String → String → String
  secondary : String → Except String Resp
  deliver : String → String → Bool
  today : String

/-- Static run configuration: the `SOURCES` list and `NTFY_TOPIC`. -/
structure Config where
  sources : List Src
  topic : Option String

/-- `MAX_ITEMS_PER_SOURCE` (environment default `"30"`). -/
def MAX_ITEMS_PER_SOURCE : Nat := 30

/-- The static `SOURCES` configuration list from the code. -/
def SOURCES : List Src :=
  [⟨"기재부_보도자료(RSS)", .rss, "https://www.moef.go.kr/feeds/news_release.xml",
    none, none⟩,
   ⟨"국세청_보도자료", .html,
    "https://www.nts.go.kr/nts/cm/cntnts/cntntsView.do?mi=11931",
    some "div.bbsList li a", some "https://www.nts.go.kr"⟩,
   ⟨"국세청_공지사항", .html,
    "https://www.nts.go.kr/nts/cm/cntnts/cntntsList.do?mi=11932",
    some "div.bbsList li a", some "https://www.nts.go.kr"⟩,
   ⟨"법제처_최근공포법령", .html,
    "https://www.law.go.kr/LSW/lsInfoP.do?lsiSeq=&lsId=&efYd=&chrClsCd=",
    some "a", some "https://www.law.go.kr"⟩,
   ⟨"법제처_입법예고(RSS)", .rss, "https://open.moleg.go.kr/data/xml/li_rssSH01.xml",
    none, none⟩,
   ⟨"기재부_입법·행정예고", .html,
    "https://www.moef.go.kr/lw/lap/TbPrvntcList.do?bbsId=MOSFBBS_000000000055&menuNo=7050300",
    some "table a, .bbsList a, a[href*='TbPrvntcView']", some "https://www.moef.go.kr"⟩]

/-! ### Source adapters -/

/-- Scanner for the regex `<[^<]+?>`: from a position right after a `<`,
find the least `p ≥ 1` with `rest[p] = '>'` and no `'<'` among
`rest[0..p-1]`; returns the number of characters the match consumes. -/
def findTagClose : List Char → Nat → Option Nat
  | [], _ => none
  | c :: rest, i =>
      if c = '<' then none
      else if c = '>' ∧ 1 ≤ i then some (i + 1)
      else findTagClose rest (i + 1)

/-- Left-to-right non-overlapping deletion of `<[^<]+?>` matches, as
`re.sub("<[^<]+?>", "", s)` performs. -/
def stripTags : List Char → List Char
  | [] => []
  | c :: rest =>
      if c = '<' then
        match findTagClose rest 0 with
        | some n => stripTags (rest.drop n)
        | none => c :: stripTags rest
      else c :: stripTags rest
termination_by l => l.length
decreasing_by
· simp [List.length_drop]; omega
· simp
· simp

/-- `strip_html(s)`: delete `<...>` tag matches, then strip. -/
def strip_html (s : String) : String := pyStrip (String.mk (stripTags s.data))

/-- Build one candidate item from a feed entry, with the source URL as the
fallback link (`getattr(e,"link","") or url`) and the summary-then-
description fallback chain, HTML-stripped. -/
def entryItem (srcUrl : String) (e : Entry) : Item :=
  let title := e.title.getD ""
  let link0 := e.link.getD ""
  let link := if link0 = "" then srcUrl else link0
  let s1 := e.summary.getD ""
  let summ := if s1 = "" then e.description.getD "" else s1
  ⟨title, link, strip_html summ⟩

/-- `fetch_rss(url)`: empty if the `feedparser` import failed, otherwise the
first `MAX_ITEMS_PER_SOURCE` entries normalised to items. -/
def fetch_rss (w : World) (url : String) : Except String (List Item) :=
  if w.feedAvail then
    match w.feedEntries url with
    | .error e => .error e
    | .ok es => .ok ((es.take MAX_ITEMS_PER_SOURCE).map (entryItem url))
  else .ok []

/-- The dedup key of `fetch_html`: the pair `(x["title"], x["url"])`. -/
def keyOf (it : Item) : String × String := (it.title, it.url)

/-- One step of the Python dict comprehension `{ (t,u): x for x in out }`:
an existing key keeps its position but takes the new value; a new key is
appended. -/
def pyDictInsert (ps : List ((String × String) × Item)) (x : Item) :
    List ((String × String) × Item) :=
  if ps.any (fun p => p.1 = keyOf x) then
    ps.map (fun p => if p.1 = keyOf x then (p.1, x) else p)
  else ps ++ [(keyOf x, x)]

/-- `list({ (t,u): x for x in out }.values())`: insertion-ordered dict
deduplication by `(title, url)`. -/
def pyDictDedup (l : List Item) : List Item :=
  (l.foldl pyDictInsert []).map Prod.snd

/-- The anchor loop of `fetch_html`: cap the selected anchors, skip those
with empty text or empty/missing href, resolve hrefs against
`base or url`. -/
def anchorItems (uj : String → String → String) (url : String)
    (base : Option String) (anchors : List Anchor) : List Item :=
  (anchors.take MAX_ITEMS_PER_SOURCE).foldr
    (fun a acc =>
      if a.text = "" ∨ a.href = "" then acc
      else ⟨a.text, uj (base.getD url) a.href, ""⟩ :: acc) []

/-- `fetch_html(url, sel, base)`: fetch and select anchors (errors, including
non-success status, propagate), build items, dedup by `(title, url)`. -/
def fetch_html (w : World) (url : String) (sel : String)
    (base : Option String) : Except String (List Item) :=
  match w.listing url sel with
  | .error e => .error e
  | .ok anchors => .ok (pyDictDedup (anchorItems w.urljoin url base anchors))

/-- `fetch_source(src)`: dispatch on the source kind. -/
def fetch_source (w : World) (src : Src) : Except String (List Item) :=
  match src.kind with
  | .rss => fetch_rss w src.url
  | .html => fetch_html w src.url (src.item_selector.getD "a") src.base

/-! ### Relevance filter and orchestrator -/

/-- The relevance decision for one item whose identity is not yet seen:
title keyword match short-circuits; otherwise a secondary body fetch is
attempted, failing closed.  Returns the decision and the list of secondary
fetch URLs issued (the observable network effect). -/
def relevance (w : World) (it : Item) : Bool × List String :=
  if match_keywords it.title then (true, [])
  else
    match w.secondary it.url with
    | .error _ => (false, [it.url])
    | .ok r => (if r.ok then match_keywords r.body else false, [it.url])

/-- The per-item body of the main loop: an already-seen identity is skipped
before any relevance work; otherwise the relevance filter runs and a passing
item becomes a hit. -/
def processItem (w : World) (sent : List String) (src : Src) (it : Item) :
    List Hit × List String :=
  let iid := make_id it.title it.url
  if iid ∈ sent then ([], [])
  else
    let r := relevance w it
    (if r.1 then [⟨iid, it.title, it.url, src.name⟩] else [], r.2)

/-- The per-source body of the main loop: a raised fetch/parse error is
caught at the source boundary and contributes nothing; otherwise every
fetched item is processed in order. -/
def processSource (w : World) (sent : List String) (src : Src) :
    List Hit × List String :=
  match fetch_source w src with
  | .error _ => ([], [])
  | .ok items =>
      items.foldl
        (fun acc it =>
          let r := processItem w sent src it
          (acc.1 ++ r.1, acc.2 ++ r.2)) ([], [])

/-- The source loop of `main`: accumulate hits and secondary fetch calls
across all sources in order. -/
def gather (w : World) (sent : List String) (sources : List Src) :
    List Hit × List String :=
  sources.foldl
    (fun acc s =>
      let r := processSource w sent s
      (acc.1 ++ r.1, acc.2 ++ r.2)) ([], [])

/-- One digest line, as the f-string
`"• ({h['src']}) {textwrap.shorten(h['title'],200,'…')}\n{h['url']}"`
builds it.  The embedded `shorten` call passes its placeholder positionally
and always raises, so no line is ever built. -/
def fmtLine (h : Hit) : Except String String :=
  match shortenPositional h.title 200 "…" with
  | Except.error e => Except.error e
  | Except.ok t => Except.ok ("• (" ++ h.src ++ ") " ++ t ++ "\n" ++ h.url)

/-- The digest-line list comprehension, evaluated left to right: the first
element that raises aborts the whole comprehension with that exception. -/
def digestLines : List Hit → Except String (List String)
  | [] => Except.ok []
  | h :: rest =>
      match fmtLine h with
      | Except.error e => Except.error e
      | Except.ok l =>
          match digestLines rest with
          | Except.error e => Except.error e
          | Except.ok ls => Except.ok (l :: ls)

/-- The notification title of the 0-based `i`-th chunk: the date-stamped
label, with `" (i+1)"` appended unless this is the first chunk and the whole
body fits the 1500-character budget. -/
def pushTitle (today : String) (bodyLen i : Nat) : String :=
  today ++ " 세법/공지 업데이트" ++
    (if i = 0 ∧ bodyLen ≤ 1500 then "" else " (" ++ toString (i + 1) ++ ")")

/-- `sent.add(x)` on the list model of the identity set. -/
def insertId (s : List String) (x : String) : List String :=
  if x ∈ s then s else s ++ [x]

/-- The identity set loaded from the state file (`state.get("sent_ids",
[])`; an absent file yields the empty default).  The file is modelled by its
`sent_ids` payload; Python's set iteration order on write-back is abstracted
to membership, which is all later runs consume. -/
def sent0Of (file : Option (List String)) : List String := file.getD []

/-- Everything one run observably does.  `crashed` records that an uncaught
exception propagated out of `main` and aborted the process. -/
structure RunResult where
  hits : List Hit
  pushes : List (String × String)
  delivered : List Bool
  secondaryCalls : List String
  fileAfter : Option (List String)
  wrote : Bool
  crashed : Bool
deriving Repr, DecidableEq

/-- The tail of `main` after the source loop.  With no hits nothing is sent
and the state file is untouched.  With hits, the digest-line comprehension
runs first; its `textwrap.shorten(title, 200, '…')` call passes the
placeholder positionally and raises `TypeError`, which no handler catches:
the run aborts with no pushes and no state write.  The rest of the tail
(join, chunk, titles, pushes with delivery only under a configured topic,
identity-set growth, save) is embedded in the success branch, which is
unreachable because `digestLines` fails on every nonempty batch. -/
def runFromGather (cfg : Config) (w : World) (file : Option (List String))
    (g : List Hit × List String) : RunResult :=
  let hits := g.1
  if hits = [] then ⟨hits, [], [], g.2, file, false, false⟩
  else
    let top := hits.take 10
    match digestLines top with
    | Except.error _ => ⟨hits, [], [], g.2, file, false, true⟩
    | Except.ok ls =>
        let body := String.intercalate "\n\n" ls
        let pushes := (chunk body).enum.map
          (fun p => (pushTitle w.today body.length p.1, p.2))
        let delivered :=
          match cfg.topic with
          | none => []
          | some _ => pushes.map (fun p => w.deliver p.1 p.2)
        let sent1 := top.foldl (fun s h => insertId s h.id) (sent0Of file)
        ⟨hits, pushes, delivered, g.2, some sent1, true, false⟩

/-- `main()`: load state, run the source loop, then notify and commit. -/
def runMain (cfg : Config) (w : World) (file : Option (List String)) :
    RunResult :=
  runFromGather cfg w file (gather w (sent0Of file) cfg.sources)

/-! ### Lemmas on Python `strip` -/

/-- A string consisting only of Python whitespace characters. -/
def allSpace (s : String) : Prop := ∀ c ∈ s.data, isPySpace c

instance (s : String) : Decidable (allSpace s) :=
  List.decidableBAll _ s.data

theorem rdropWhile_space_append (l q : List Char)
    (hq : ∀ c ∈ q, isPySpace c) :
    (l ++ q).rdropWhile isPySpace = l.rdropWhile isPySpace := by
  unfold List.rdropWhile
  rw [List.reverse_append, List.dropWhile_append_of_pos]
  intro a ha
  exact hq a (List.mem_reverse.mp ha)

theorem stripChars_append_left (p l : List Char)
    (hp : ∀ c ∈ p, isPySpace c) :
    stripChars (p ++ l) = stripChars l := by
  unfold stripChars
  rw [List.dropWhile_append_of_pos hp]

theorem stripChars_append_right (l q : List Char)
    (hq : ∀ c ∈ q, isPySpace c) :
    stripChars (l ++ q) = stripChars l := by
  unfold stripChars
  rw [List.dropWhile_append]
  by_cases h : (l.dropWhile isPySpace).isEmpty
  · rw [if_pos h]
    rw [List.isEmpty_iff] at h
    rw [h, List.dropWhile_eq_nil_iff.mpr (fun c hc => hq c hc)]
  · rw [if_neg h]
    exact rdropWhile_space_append _ _ hq

theorem pyStrip_pad (p s q : String) (hp : allSpace p) (hq : allSpace q) :
    pyStrip (p ++ s ++ q) = pyStrip s := by
  unfold pyStrip
  have hd : (p ++ s ++ q).data = p.data ++ (s.data ++ q.data) := by
    simp [String.data_append]
  rw [hd, stripChars_append_left _ _ hp, stripChars_append_right _ _ hq]

theorem idPreimage_pad (t u p q p' q' : String)
    (hp : allSpace p) (hq : allSpace q) (hp' : allSpace p') (hq' : allSpace q') :
    idPreimage (p ++ t ++ q) (p' ++ u ++ q') = idPreimage t u := by
  unfold idPreimage
  rw [pyStrip_pad _ _ _ hp hq, pyStrip_pad _ _ _ hp' hq']

/-! ### Digest length -/

theorem hexChars_length (l : List Nat) : (hexChars l).length = 2 * l.length := by
  induction l with
  | nil => rfl
  | cons b rest ih =>
      simp only [hexChars, List.foldr_cons, List.length_cons] at *
      simp only [List.length_cons, ih]
      omega

theorem sha256_length (msg : List Nat) : (sha256 msg).length = 32 := by
  simp [sha256, digestBytes, wordBytes]

theorem make_id_length (t u : String) : (make_id t u).length = 16 := by
  have h64 : (hexChars (sha256 (utf8 (idPreimage t u)))).length = 64 := by
    rw [hexChars_length, sha256_length]
  simp [make_id, String.length, List.length_take, h64]

end TaxWatch

namespace TaxWatch

/-- C4: `make_id` is deterministic (it is a pure function of its two string
arguments), returns a fixed-length opaque string — the first 16 characters
of the 64-character SHA-256 hex digest — and is insensitive to leading and
trailing whitespace in either field: surrounding whitespace added to the
title or the url does not change the identity. -/
theorem C4_make_id_props (t u p q p' q' : String)
    (hp : allSpace p) (hq : allSpace q) (hp' : allSpace p') (hq' : allSpace q') :
    make_id (p ++ t ++ q) (p' ++ u ++ q') = make_id t u ∧
    (make_id t u).length = 16 := by
  constructor
  · unfold make_id
    rw [idPreimage_pad t u p q p' q' hp hq hp' hq']
  · exact make_id_length t u

/-- Witness for C4 at concrete inputs: whitespace padding of both fields. -/
theorem C4_make_id_props_witness :
    allSpace " " ∧ allSpace "\t " ∧ allSpace "" ∧
    (make_id (" " ++ "세법" ++ "\t ") ("" ++ "https://x/1" ++ " ") =
       make_id "세법" "https://x/1" ∧
     (make_id "세법" "https://x/1").length = 16) :=
  ⟨by decide, by decide, by decide,
   C4_make_id_props "세법" "https://x/1" " " "\t " "" " "
     (by decide) (by decide) (by decide) (by decide)⟩

/-- C10: the identity pre-image concatenates trimmed title, `"|"`, and
trimmed url, so distinct `(title, url)` pairs can share the pre-image and
hence the full hash and the truncated identity: `make_id("a|b","c") =
make_id("a","b|c")` although the pairs differ. -/
theorem C10_identity_not_injective :
    make_id "a|b" "c" = make_id "a" "b|c" ∧
    idPreimage "a|b" "c" = idPreimage "a" "b|c" ∧
    (("a|b", "c") : String × String) ≠ ("a", "b|c") := by
  refine ⟨?_, by decide, by decide⟩
  unfold make_id
  rw [show idPreimage "a|b" "c" = idPreimage "a" "b|c" from by decide]

/-! ### Fold characterizations of the orchestrator loops -/

theorem foldl_pair_append {α β γ : Type} (f : α → List β × List γ) :
    ∀ (l : List α) (acc : List β × List γ),
      l.foldl (fun acc x => (acc.1 ++ (f x).1, acc.2 ++ (f x).2)) acc =
        (acc.1 ++ (l.map fun x => (f x).1).flatten,
         acc.2 ++ (l.map fun x => (f x).2).flatten)
  | [], acc => by simp
  | x :: l, acc => by
      rw [List.foldl_cons, foldl_pair_append f l]
      simp [List.append_assoc]

theorem processSource_ok (w : World) (sent : List String) (src : Src)
    (items : List Item) (h : fetch_source w src = Except.ok items) :
    processSource w sent src =
      ((items.map fun it => (processItem w sent src it).1).flatten,
       (items.map fun it => (processItem w sent src it).2).flatten) := by
  unfold processSource
  rw [h]
  simpa using foldl_pair_append (processItem w sent src) items ([], [])

theorem processSource_err (w : World) (sent : List String) (src : Src)
    (e : String) (h : fetch_source w src = Except.error e) :
    processSource w sent src = ([], []) := by
  unfold processSource
  rw [h]

theorem gather_eq (w : World) (sent : List String) (sources : List Src) :
    gather w sent sources =
      ((sources.map fun s => (processSource w sent s).1).flatten,
       (sources.map fun s => (processSource w sent s).2).flatten) := by
  unfold gather
  simpa using foldl_pair_append (processSource w sent) sources ([], [])

theorem runFromGather_hits (cfg : Config) (w : World)
    (file : Option (List String)) (g : List Hit × List String) :
    (runFromGather cfg w file g).hits = g.1 := by
  unfold runFromGather
  dsimp only
  split
  · rfl
  · split <;> rfl

theorem runFromGather_calls (cfg : Config) (w : World)
    (file : Option (List String)) (g : List Hit × List String) :
    (runFromGather cfg w file g).secondaryCalls = g.2 := by
  unfold runFromGather
  dsimp only
  split
  · rfl
  · split <;> rfl

theorem runFromGather_nil (cfg : Config) (w : World)
    (file : Option (List String)) (g : List Hit × List String)
    (h : g.1 = []) :
    runFromGather cfg w file g = ⟨g.1, [], [], g.2, file, false, false⟩ := by
  unfold runFromGather
  dsimp only
  rw [if_pos h]

theorem runFromGather_crash (cfg : Config) (w : World)
    (file : Option (List String)) (g : List Hit × List String)
    (h : g.1 ≠ []) :
    runFromGather cfg w file g = ⟨g.1, [], [], g.2, file, false, true⟩ := by
  unfold runFromGather
  dsimp only
  rw [if_neg h]
  obtain ⟨x, t, hxt⟩ : ∃ x t, g.1 = x :: t := by
    cases hg : g.1 with
    | nil => exact absurd hg h
    | cons a b => exact ⟨a, b, rfl⟩
  rw [hxt]
  rfl

theorem runMain_hits (cfg : Config) (w : World) (file : Option (List String)) :
    (runMain cfg w file).hits = (gather w (sent0Of file) cfg.sources).1 :=
  runFromGather_hits ..

theorem runMain_calls (cfg : Config) (w : World) (file : Option (List String)) :
    (runMain cfg w file).secondaryCalls =
      (gather w (sent0Of file) cfg.sources).2 :=
  runFromGather_calls ..

end TaxWatch

namespace TaxWatch

/-- C3: a run that finds no new relevant item sends nothing, attempts no
delivery, does not write, completes normally, and leaves the state file
exactly as it was (including absent); and the state is written back only
when at least one new relevant item was found. -/
theorem C3_no_hits_frame (cfg : Config) (w : World)
    (file : Option (List String)) :
    ((runMain cfg w file).hits = [] →
       (runMain cfg w file).pushes = [] ∧
       (runMain cfg w file).delivered = [] ∧
       (runMain cfg w file).fileAfter = file ∧
       (runMain cfg w file).wrote = false ∧
       (runMain cfg w file).crashed = false) ∧
    ((runMain cfg w file).wrote = true → (runMain cfg w file).hits ≠ []) := by
  by_cases h : (gather w (sent0Of file) cfg.sources).1 = []
  · have hr : runMain cfg w file =
        ⟨(gather w (sent0Of file) cfg.sources).1, [], [],
         (gather w (sent0Of file) cfg.sources).2, file, false, false⟩ :=
      runFromGather_nil cfg w file _ h
    rw [hr]
    exact ⟨fun _ => ⟨rfl, rfl, rfl, rfl, rfl⟩, fun hw => absurd hw (by simp)⟩
  · have hr : runMain cfg w file =
        ⟨(gather w (sent0Of file) cfg.sources).1, [], [],
         (gather w (sent0Of file) cfg.sources).2, file, false, true⟩ :=
      runFromGather_crash cfg w file _ h
    rw [hr]
    exact ⟨fun hnil => absurd hnil h, fun _ => h⟩

/-- A world in which every network operation raises. -/
def wNetDown : World :=
  ⟨true, fun _ => Except.error "net down", fun _ _ => Except.error "net down",
   fun b h => b ++ h, fun _ => Except.error "net down", fun _ _ => false,
   "2025-01-01"⟩

/-- Witness for C3: a run over the real source list in which every source
fails yields no hits, and the absent state file stays absent. -/
theorem C3_no_hits_frame_witness :
    (runMain ⟨SOURCES, none⟩ wNetDown none).hits = [] ∧
    ((runMain ⟨SOURCES, none⟩ wNetDown none).pushes = [] ∧
     (runMain ⟨SOURCES, none⟩ wNetDown none).delivered = [] ∧
     (runMain ⟨SOURCES, none⟩ wNetDown none).fileAfter = none ∧
     (runMain ⟨SOURCES, none⟩ wNetDown none).wrote = false ∧
     (runMain ⟨SOURCES, none⟩ wNetDown none).crashed = false) :=
  ⟨by decide, (C3_no_hits_frame ⟨SOURCES, none⟩ wNetDown none).1 (by decide)⟩

/-- C8: when the title does not match, the relevance decision is exactly
"the secondary fetch returned, reported success, and its extracted body
matches a keyword"; a raised fetch error or a non-success status therefore
yields "not relevant", and the total function `relevance` surfaces no
error.  Exactly one secondary fetch of the item's URL is issued. -/
theorem C8_relevance_fail_closed (w : World) (it : Item)
    (hT : match_keywords it.title = false) :
    ((relevance w it).1 = true ↔
       ∃ r, w.secondary it.url = Except.ok r ∧ r.ok = true ∧
         match_keywords r.body = true) ∧
    (relevance w it).2 = [it.url] := by
  have hT' : ¬(match_keywords it.title = true) := by simp [hT]
  unfold relevance
  rw [if_neg hT']
  cases hsec : w.secondary it.url with
  | error e => simp
  | ok r =>
      by_cases hok : r.ok = true
      · simp [hok]
      · simp [hok]

/-- A world whose secondary fetch always raises. -/
def wSecRaise : World :=
  ⟨true, fun _ => Except.ok [], fun _ _ => Except.ok [],
   fun b h => b ++ h, fun _ => Except.error "boom", fun _ _ => false,
   "2025-01-01"⟩

/-- Witness for C8 at a keyword-free title and a raising secondary fetch. -/
theorem C8_relevance_fail_closed_witness :
    match_keywords "hello" = false ∧
    (((relevance wSecRaise ⟨"hello", "https://x/2", ""⟩).1 = true ↔
        ∃ r, wSecRaise.secondary "https://x/2" = Except.ok r ∧ r.ok = true ∧
          match_keywords r.body = true) ∧
     (relevance wSecRaise ⟨"hello", "https://x/2", ""⟩).2 = ["https://x/2"]) :=
  ⟨by decide, C8_relevance_fail_closed wSecRaise ⟨"hello", "https://x/2", ""⟩
    (by decide)⟩

/-! ### C9: per-source failure isolation -/

/-- C9: a fetch/parse failure raised for one source is absorbed at that
source's loop iteration: the failing source contributes no candidate items
and no secondary fetches, and the whole run is exactly the run over the
remaining sources — every other source, before or after the failing one, is
still processed identically. -/
theorem C9_source_failure_isolated (topic : Option String) (w : World)
    (file : Option (List String)) (xs ys : List Src) (bad : Src) (e : String)
    (h : fetch_source w bad = Except.error e) :
    processSource w (sent0Of file) bad = ([], []) ∧
    runMain ⟨xs ++ bad :: ys, topic⟩ w file = runMain ⟨xs ++ ys, topic⟩ w file := by
  refine ⟨processSource_err w (sent0Of file) bad e h, ?_⟩
  unfold runMain
  have hg : gather w (sent0Of file) (xs ++ bad :: ys) =
      gather w (sent0Of file) (xs ++ ys) := by
    rw [gather_eq, gather_eq]
    simp [processSource_err w (sent0Of file) bad e h]
  rw [hg]
  rfl

/-- Witness for C9: an HTML source whose fetch raises, inserted between no
sources and one RSS source. -/
theorem C9_source_failure_isolated_witness :
    fetch_source wNetDown ⟨"국세청_보도자료", SrcKind.html,
      "https://www.nts.go.kr/nts/cm/cntnts/cntntsView.do?mi=11931",
      some "div.bbsList li a", some "https://www.nts.go.kr"⟩ =
      Except.error "net down" ∧
    (processSource wNetDown (sent0Of none) ⟨"국세청_보도자료", SrcKind.html,
        "https://www.nts.go.kr/nts/cm/cntnts/cntntsView.do?mi=11931",
        some "div.bbsList li a", some "https://www.nts.go.kr"⟩ = ([], []) ∧
     runMain ⟨[] ++ ⟨"국세청_보도자료", SrcKind.html,
        "https://www.nts.go.kr/nts/cm/cntnts/cntntsView.do?mi=11931",
        some "div.bbsList li a", some "https://www.nts.go.kr"⟩ ::
          SOURCES.take 1, none⟩ wNetDown none =
       runMain ⟨[] ++ SOURCES.take 1, none⟩ wNetDown none) :=
  ⟨rfl, C9_source_failure_isolated none wNetDown none [] (SOURCES.take 1)
    _ "net down" rfl⟩

/-! ### C2: already-seen identities are skipped before the relevance filter -/

/-- C2: an item whose identity is already in the loaded `sent_ids` set is
skipped before the relevance filter: it contributes no hit and issues no
secondary body fetch.  Consequently every secondary fetch URL a run issues
belongs to a fetched item whose identity was not in the loaded set (and
whose title did not match). -/
theorem C2_seen_skipped_before_filter (cfg : Config) (w : World)
    (file : Option (List String)) :
    (∀ (sent : List String) (src : Src) (it : Item),
       make_id it.title it.url ∈ sent → processItem w sent src it = ([], [])) ∧
    (∀ u ∈ (runMain cfg w file).secondaryCalls,
       ∃ src items it, src ∈ cfg.sources ∧
         fetch_source w src = Except.ok items ∧ it ∈ items ∧ u = it.url ∧
         make_id it.title it.url ∉ sent0Of file ∧
         match_keywords it.title = false) := by
  constructor
  · intro sent src it hmem
    unfold processItem
    rw [if_pos hmem]
  · intro u hu
    rw [runMain_calls, gather_eq] at hu
    simp only [List.mem_flatten, List.mem_map] at hu
    obtain ⟨_, ⟨src, hsrc, rfl⟩, hu⟩ := hu
    cases hf : fetch_source w src with
    | error e => rw [processSource_err w _ src e hf] at hu; simp at hu
    | ok items =>
        rw [processSource_ok w _ src items hf] at hu
        simp only [List.mem_flatten, List.mem_map] at hu
        obtain ⟨_, ⟨it, hit, rfl⟩, hu⟩ := hu
        by_cases hmem : make_id it.title it.url ∈ sent0Of file
        · unfold processItem at hu
          rw [if_pos hmem] at hu
          simp at hu
        · unfold processItem at hu
          rw [if_neg hmem] at hu
          by_cases ht : match_keywords it.title = true
          · unfold relevance at hu
            rw [if_pos ht] at hu
            simp at hu
          · unfold relevance at hu
            rw [if_neg ht] at hu
            refine ⟨src, items, it, hsrc, hf, hit, ?_, hmem, by simpa using ht⟩
            cases hs : w.secondary it.url with
            | error e => rw [hs] at hu; simpa using hu
            | ok r => rw [hs] at hu; simpa using hu

/-- The demonstration world of the spec's end-to-end scenario: one RSS
source yielding a keyword-titled item and a keyword-free item whose body
fetch finds no keyword. -/
def wDemo : World :=
  ⟨true,
   fun _ => Except.ok
     [⟨some "2024 세법 개정안", some "https://x/1", none, none⟩,
      ⟨some "날씨 안내", some "https://x/2", none, none⟩],
   fun _ _ => Except.error "net",
   fun b h => b ++ "/" ++ h,
   fun _ => Except.ok ⟨true, "no keyword here"⟩,
   fun _ _ => true,
   "2025-01-01"⟩

/-- The demonstration configuration: the real first source, topic set. -/
def cfgDemo : Config := ⟨SOURCES.take 1, some "tax"⟩

/-- Witness for C2: a fully-seen item is skipped, and the demo run's one
secondary call is accounted for by an unseen keyword-free item. -/
theorem C2_seen_skipped_before_filter_witness :
    make_id "hello" "https://x/9" ∈ [make_id "hello" "https://x/9"] ∧
    processItem wDemo [make_id "hello" "https://x/9"] ⟨"s", SrcKind.rss, "u", none, none⟩
      ⟨"hello", "https://x/9", ""⟩ = ([], []) ∧
    "https://x/2" ∈ (runMain cfgDemo wDemo none).secondaryCalls ∧
    (∃ src items it, src ∈ cfgDemo.sources ∧
       fetch_source wDemo src = Except.ok items ∧ it ∈ items ∧
       "https://x/2" = it.url ∧
       make_id it.title it.url ∉ sent0Of none ∧
       match_keywords it.title = false) :=
  ⟨List.mem_singleton.mpr rfl,
   (C2_seen_skipped_before_filter cfgDemo wDemo none).1 _ _ _
     (List.mem_singleton.mpr rfl),
   by decide,
   (C2_seen_skipped_before_filter cfgDemo wDemo none).2 _ (by decide)⟩

/-! ### C1: state never grows — the digest formatting crashes first -/

theorem digestLines_cons (h : Hit) (rest : List Hit) :
    digestLines (h :: rest) =
      Except.error
        "TypeError: shorten() takes 2 positional arguments but 3 were given" :=
  rfl

/-- C1 (code bug): a run that finds at least one new relevant item never
reaches the state commit.  Building the digest lines calls
`textwrap.shorten(title, 200, '…')` with a positional placeholder, which
raises `TypeError`; nothing catches it, so the run aborts before any push
and before `save_state` — the persisted `sent_ids` never grows, contrary to
the claim and to the spec's stated invariant. -/
theorem C1_crash_before_commit (cfg : Config) (w : World)
    (file : Option (List String))
    (hh : (runMain cfg w file).hits ≠ []) :
    (runMain cfg w file).crashed = true ∧
    (runMain cfg w file).pushes = [] ∧
    (runMain cfg w file).delivered = [] ∧
    (runMain cfg w file).wrote = false ∧
    (runMain cfg w file).fileAfter = file ∧
    digestLines ((runMain cfg w file).hits.take 10) =
      Except.error
        "TypeError: shorten() takes 2 positional arguments but 3 were given" := by
  have hg : (gather w (sent0Of file) cfg.sources).1 ≠ [] := by
    rw [runMain_hits] at hh
    exact hh
  have hr : runMain cfg w file =
      ⟨(gather w (sent0Of file) cfg.sources).1, [], [],
       (gather w (sent0Of file) cfg.sources).2, file, false, true⟩ :=
    runFromGather_crash cfg w file _ hg
  rw [hr]
  refine ⟨rfl, rfl, rfl, rfl, rfl, ?_⟩
  obtain ⟨x, t, hxt⟩ : ∃ x t,
      (gather w (sent0Of file) cfg.sources).1 = x :: t := by
    cases hg2 : (gather w (sent0Of file) cfg.sources).1 with
    | nil => exact absurd hg2 hg
    | cons a b => exact ⟨a, b, rfl⟩
  show digestLines ((gather w (sent0Of file) cfg.sources).1.take 10) = _
  rw [hxt]
  exact digestLines_cons x (t.take 9)

/-- Witness for C1: the demo run finds one hit, crashes, and commits
nothing. -/
theorem C1_crash_before_commit_witness :
    (runMain cfgDemo wDemo none).hits ≠ [] ∧
    ((runMain cfgDemo wDemo none).crashed = true ∧
     (runMain cfgDemo wDemo none).pushes = [] ∧
     (runMain cfgDemo wDemo none).delivered = [] ∧
     (runMain cfgDemo wDemo none).wrote = false ∧
     (runMain cfgDemo wDemo none).fileAfter = none ∧
     digestLines ((runMain cfgDemo wDemo none).hits.take 10) =
       Except.error
         "TypeError: shorten() takes 2 positional arguments but 3 were given") :=
  ⟨by decide, C1_crash_before_commit cfgDemo wDemo none (by decide)⟩

/-! ### C5: chunking -/

/-- The string the chunk accumulator holds after absorbing the lines of
`g`: each line with its newline re-appended, concatenated. -/
def rawJoin (g : List String) : String :=
  g.foldr (fun l acc => (l ++ "\n") ++ acc) ""

/-- The emitted chunk for a group of whole lines. -/
def renderChunk (g : List String) : String := pyRstrip (rawJoin g)

theorem length_mk (l : List Char) : (String.mk l).length = l.length := rfl

theorem rawJoin_cons (l : String) (g : List String) :
    rawJoin (l :: g) = (l ++ "\n") ++ rawJoin g := rfl

theorem rawJoin_concat (g : List String) (l : String) :
    rawJoin (g ++ [l]) = rawJoin g ++ (l ++ "\n") := by
  induction g with
  | nil => simp [rawJoin]
  | cons x g ih =>
      rw [List.cons_append, rawJoin_cons, rawJoin_cons, ih]
      simp [String.append_assoc]

theorem rawJoin_length_cons (l : String) (g : List String) :
    (rawJoin (l :: g)).length = l.length + 1 + (rawJoin g).length := by
  rw [rawJoin_cons, String.length_append, String.length_append,
    show ("\n" : String).length = 1 from rfl]

theorem rawJoin_ne_empty (g : List String) (h : g ≠ []) : rawJoin g ≠ "" := by
  cases g with
  | nil => exact absurd rfl h
  | cons l g =>
      intro he
      have hlen := congrArg String.length he
      rw [rawJoin_length_cons] at hlen
      have h0 : String.length "" = 0 := rfl
      rw [h0] at hlen
      omega

theorem rawJoin_empty_iff (g : List String) : rawJoin g = "" ↔ g = [] := by
  constructor
  · intro h
    by_contra hne
    exact rawJoin_ne_empty g hne h
  · rintro rfl
    rfl

theorem chunkLoop_partition (maxlen : Nat) :
    ∀ (rest g out : List String),
      ∃ hs : List (List String), (∀ x ∈ hs, x ≠ []) ∧
        hs.flatten = g ++ rest ∧
        chunkLoop maxlen rest (rawJoin g) out = out ++ hs.map renderChunk
  | [], g, out => by
      by_cases hg : g = []
      · subst hg
        exact ⟨[], by simp, by simp, by simp [chunkLoop, rawJoin]⟩
      · refine ⟨[g], by simpa using hg, by simp, ?_⟩
        simp [chunkLoop, rawJoin_ne_empty g hg, renderChunk]
  | line :: rest, g, out => by
      by_cases hc : (rawJoin g).length + (line ++ "\n").length > maxlen ∧
          rawJoin g ≠ ""
      · have hg : g ≠ [] := fun he => hc.2 (he ▸ rfl)
        obtain ⟨hs, hne, hflat, hres⟩ :=
          chunkLoop_partition maxlen rest [line] (out ++ [pyRstrip (rawJoin g)])
        refine ⟨g :: hs, ?_, ?_, ?_⟩
        · intro x hx
          rcases List.mem_cons.mp hx with rfl | hx
          · exact hg
          · exact hne x hx
        · simp [hflat]
        · rw [chunkLoop, if_pos hc]
          rw [show line ++ "\n" = rawJoin [line] from by simp [rawJoin]]
          rw [hres]
          simp [renderChunk, List.append_assoc]
      · obtain ⟨hs, hne, hflat, hres⟩ :=
          chunkLoop_partition maxlen rest (g ++ [line]) out
        refine ⟨hs, hne, ?_, ?_⟩
        · simp [hflat]
        · rw [chunkLoop, if_neg hc]
          rw [show rawJoin g ++ (line ++ "\n") = rawJoin (g ++ [line]) from
            (rawJoin_concat g line).symm]
          exact hres

theorem chunk_partition (s : String) (h : splitlines s ≠ []) :
    ∃ hs : List (List String), hs ≠ [] ∧ (∀ g ∈ hs, g ≠ []) ∧
      hs.flatten = splitlines s ∧ chunk s = hs.map renderChunk := by
  obtain ⟨hs, hne, hflat, hres⟩ := chunkLoop_partition 1500 (splitlines s) [] []
  have hs0 : hs ≠ [] := by
    intro he
    rw [he] at hflat
    exact h (by simpa using hflat.symm)
  refine ⟨hs, hs0, hne, by simpa using hflat, ?_⟩
  unfold chunk
  rw [show rawJoin [] = "" from rfl] at hres
  rw [hres]
  simp only [List.nil_append]
  rw [if_neg (by simpa using hs0)]

theorem chunkLoop_small (maxlen : Nat) :
    ∀ (rest : List String) (cur : String) (out : List String),
      cur.length + (rawJoin rest).length ≤ maxlen →
      chunkLoop maxlen rest cur out =
        if cur ++ rawJoin rest = "" then out
        else out ++ [pyRstrip (cur ++ rawJoin rest)]
  | [], cur, out, _ => by
      simp [chunkLoop, rawJoin]
  | line :: rest, cur, out, hb => by
      have hlen : (rawJoin (line :: rest)).length =
          line.length + 1 + (rawJoin rest).length := rawJoin_length_cons line rest
      have hadd : (line ++ "\n").length = line.length + 1 := by
        rw [String.length_append]
        rfl
      have hcond : ¬(cur.length + (line ++ "\n").length > maxlen ∧ cur ≠ "") := by
        intro hc
        omega
      rw [chunkLoop, if_neg hcond]
      rw [chunkLoop_small maxlen rest (cur ++ (line ++ "\n")) out
        (by rw [String.length_append]; omega)]
      rw [String.append_assoc, ← rawJoin_cons]

theorem splitLinesAux_nil_bound (acc : List Char) :
    (rawJoin (splitLinesAux [] acc)).length ≤ acc.length + 1 := by
  rw [show splitLinesAux [] acc =
      (if acc.isEmpty then [] else [String.mk acc.reverse]) from rfl]
  by_cases hacc : acc.isEmpty
  · rw [if_pos hacc]
    rw [show (rawJoin []).length = 0 from rfl]
    omega
  · rw [if_neg hacc, rawJoin_length_cons]
    rw [show (rawJoin []).length = 0 from rfl, length_mk, List.length_reverse]

theorem splitLinesAux_len_bound :
    ∀ (n : Nat) (l acc : List Char), l.length ≤ n →
      (rawJoin (splitLinesAux l acc)).length ≤ l.length + acc.length + 1 := by
  intro n
  induction n with
  | zero =>
      intro l acc hl
      have hnil : l = [] := List.eq_nil_of_length_eq_zero (Nat.le_zero.mp hl)
      subst hnil
      simpa using splitLinesAux_nil_bound acc
  | succ n ih =>
      intro l acc hl
      cases l with
      | nil => simpa using splitLinesAux_nil_bound acc
      | cons c rest =>
          simp only [List.length_cons] at hl
          by_cases hcr : c = '\r' ∧ ∃ rest2, rest = '\n' :: rest2
          · obtain ⟨rfl, rest2, rfl⟩ := hcr
            rw [splitLinesAux.eq_2, rawJoin_length_cons]
            simp only [List.length_cons] at hl
            have hrec := ih rest2 [] (by omega)
            simp only [List.length_nil] at hrec
            simp only [length_mk, List.length_reverse, List.length_cons]
            omega
          · have hside : ∀ (rest1 : List Char),
                c = '\r' → rest = '\n' :: rest1 → False := by
              intro r1 hc hr
              exact hcr ⟨hc, r1, hr⟩
            rw [splitLinesAux.eq_3 acc c rest hside]
            by_cases hbr : isLineBreak c = true
            · rw [if_pos hbr, rawJoin_length_cons]
              have hrec := ih rest [] (by omega)
              simp only [List.length_nil] at hrec
              simp only [length_mk, List.length_reverse, List.length_cons]
              omega
            · rw [if_neg hbr]
              have hrec := ih rest (c :: acc) (by omega)
              simp only [List.length_cons] at hrec ⊢
              omega

theorem rawJoin_splitlines_length (s : String) :
    (rawJoin (splitlines s)).length ≤ s.length + 1 := by
  have h := splitLinesAux_len_bound s.data.length s.data [] (Nat.le_refl _)
  simp only [List.length_nil] at h
  rw [show splitlines s = splitLinesAux s.data [] from rfl]
  rw [show s.length = s.data.length from rfl]
  omega

theorem chunk_single_of_small (s : String) (h : s.length < 1500) :
    (chunk s).length = 1 := by
  by_cases hsl : splitlines s = []
  · simp [chunk, hsl, chunkLoop]
  · have hb : ("" : String).length + (rawJoin (splitlines s)).length ≤ 1500 := by
      have h1 := rawJoin_splitlines_length s
      have h0 : ("" : String).length = 0 := rfl
      omega
    unfold chunk
    rw [chunkLoop_small 1500 (splitlines s) "" [] hb]
    rw [String.empty_append]
    rw [if_neg (rawJoin_ne_empty _ hsl)]
    simp

theorem pyRstrip_newline (s : String) : pyRstrip (s ++ "\n") = pyRstrip s := by
  unfold pyRstrip
  rw [String.data_append]
  rw [show ("\n" : String).data = ['\n'] from rfl]
  rw [rdropWhile_space_append s.data ['\n'] (by decide)]

theorem chunk_single_line (s : String) (h : splitlines s = [s]) :
    chunk s = [pyRstrip s] := by
  unfold chunk
  rw [h]
  have h1 : ¬(("" : String).length + (s ++ "\n").length > 1500 ∧ ("" : String) ≠ "") :=
    fun hc => hc.2 rfl
  rw [chunkLoop.eq_2, if_neg h1, String.empty_append]
  have h2 : s ++ "\n" ≠ "" := by
    intro he
    have hl := congrArg String.length he
    rw [String.length_append, show ("\n" : String).length = 1 from rfl,
      show String.length "" = 0 from rfl] at hl
    omega
  rw [chunkLoop.eq_1, if_neg h2]
  rw [pyRstrip_newline]
  simp

theorem splitLinesAux_no_break :
    ∀ (l acc : List Char), (∀ c ∈ l, isLineBreak c = false) →
      splitLinesAux l acc =
        if (acc.reverse ++ l).isEmpty then []
        else [String.mk (acc.reverse ++ l)]
  | [], acc, _ => by
      rw [splitLinesAux.eq_1]
      by_cases hacc : acc = []
      · subst hacc
        rfl
      · rw [List.append_nil]
        rw [if_neg (by simpa [List.isEmpty_iff] using hacc),
          if_neg (by simp [List.isEmpty_iff, List.reverse_eq_nil_iff, hacc])]
  | c :: rest, acc, h => by
      have hc : isLineBreak c = false := h c (by simp)
      have hside : ∀ r1 : List Char, c = '\r' → rest = '\n' :: r1 → False := by
        intro r1 hcr _
        rw [hcr] at hc
        exact absurd hc (by decide)
      rw [splitLinesAux.eq_3 acc c rest hside, if_neg (by simp [hc])]
      rw [splitLinesAux_no_break rest (c :: acc) (fun d hd => h d (by simp [hd]))]
      simp [List.reverse_cons, List.append_assoc]

theorem splitlines_no_break (s : String) (hne : s.data ≠ [])
    (h : ∀ c ∈ s.data, isLineBreak c = false) : splitlines s = [s] := by
  have heta : String.mk s.data = s := rfl
  rw [show splitlines s = splitLinesAux s.data [] from rfl,
    splitLinesAux_no_break s.data [] h]
  simp [List.isEmpty_iff, hne, heta]

theorem dropWhile_replicate_not (n : Nat) (c : Char) (h : isPySpace c = false) :
    (List.replicate n c).dropWhile isPySpace = List.replicate n c := by
  cases n with
  | zero => rfl
  | succ n =>
      rw [List.replicate_succ, List.dropWhile_cons, h]
      simp

theorem rdropWhile_replicate_not (n : Nat) (c : Char)
    (h : isPySpace c = false) :
    (List.replicate n c).rdropWhile isPySpace = List.replicate n c := by
  unfold List.rdropWhile
  rw [List.reverse_replicate, dropWhile_replicate_not n c h,
    List.reverse_replicate]

/-- A single 1502-character line (over the 1500 budget) ending in a space. -/
def longLine : String := String.mk (List.replicate 1501 'a' ++ [' '])

/-- C5 counterexample: `chunk` right-strips every chunk it emits, so a
single over-budget line with trailing whitespace is *not* reproduced intact
in its chunk — the trailing space is removed. -/
theorem C5_chunk_counterexample :
    splitlines longLine = [longLine] ∧ 1500 < longLine.length ∧
    chunk longLine = [String.mk (List.replicate 1501 'a')] ∧
    chunk longLine ≠ [longLine] := by
  have hdata : longLine.data = List.replicate 1501 'a' ++ [' '] := rfl
  have hnb : ∀ c ∈ longLine.data, isLineBreak c = false := by
    intro c hc
    rw [hdata] at hc
    rcases List.mem_append.mp hc with h | h
    · rw [List.eq_of_mem_replicate h]
      decide
    · rw [List.mem_singleton.mp h]
      decide
  have hne : longLine.data ≠ [] := by
    rw [hdata]
    simp
  have hsl : splitlines longLine = [longLine] := splitlines_no_break _ hne hnb
  have hlen : longLine.length = 1502 := by
    rw [show longLine.length = (List.replicate 1501 'a' ++ [' ']).length from rfl]
    simp
  have hrstrip : pyRstrip longLine = String.mk (List.replicate 1501 'a') := by
    unfold pyRstrip
    rw [hdata, rdropWhile_space_append _ _ (by decide),
      rdropWhile_replicate_not 1501 'a' (by decide)]
  have hchunk : chunk longLine = [String.mk (List.replicate 1501 'a')] := by
    rw [chunk_single_line longLine hsl, hrstrip]
  refine ⟨hsl, by omega, hchunk, ?_⟩
  rw [hchunk]
  intro he
  have h1 : String.mk (List.replicate 1501 'a') = longLine := by
    injection he
  have h2 := congrArg String.length h1
  rw [show (String.mk (List.replicate 1501 'a')).length = 1501 from by
    rw [length_mk]; simp] at h2
  omega

/-- C5 amended: `chunk` splits by line and never splits a line across
chunks — its output is the whole-line groups of the input, each rendered
with a trailing right-strip; a body shorter than the 1500 budget yields
exactly one chunk; a single-line body (over budget or not) yields that line,
right-stripped but otherwise intact, as its own chunk; the empty input
yields exactly the placeholder chunk. -/
theorem C5_chunk_props_amended (s : String) :
    (splitlines s ≠ [] → ∃ hs : List (List String), hs ≠ [] ∧
       (∀ g ∈ hs, g ≠ []) ∧ hs.flatten = splitlines s ∧
       chunk s = hs.map renderChunk) ∧
    (s.length < 1500 → (chunk s).length = 1) ∧
    (splitlines s = [s] → chunk s = [pyRstrip s]) ∧
    chunk "" = ["(empty)"] :=
  ⟨chunk_partition s, chunk_single_of_small s, chunk_single_line s, rfl⟩

/-- Witness for C5 (amended) at a concrete small body. -/
theorem C5_chunk_props_amended_witness :
    splitlines "세법 개정\n고시" ≠ [] ∧
    (∃ hs : List (List String), hs ≠ [] ∧ (∀ g ∈ hs, g ≠ []) ∧
       hs.flatten = splitlines "세법 개정\n고시" ∧
       chunk "세법 개정\n고시" = hs.map renderChunk) ∧
    ("세법 개정\n고시" : String).length < 1500 ∧
    (chunk "세법 개정\n고시").length = 1 ∧
    splitlines "고시" = ["고시"] ∧ chunk "고시" = [pyRstrip "고시"] ∧
    chunk "" = ["(empty)"] :=
  ⟨by decide,
   (C5_chunk_props_amended "세법 개정\n고시").1 (by decide),
   by decide,
   (C5_chunk_props_amended "세법 개정\n고시").2.1 (by decide),
   by decide,
   (C5_chunk_props_amended "고시").2.2.1 (by decide),
   (C5_chunk_props_amended "").2.2.2⟩

/-! ### C6: chunk titles -/

/-- C6 (code bug): no run of the program ever sends a notification.  A run
with no hits skips the push phase outright, and a run with at least one hit
raises `TypeError` while formatting the digest lines — before `chunk` runs,
before any title is built and before `send_push` is reached — so the
numbered-title behaviour the claim describes never occurs. -/
theorem C6_no_notification_ever (cfg : Config) (w : World)
    (file : Option (List String)) :
    (runMain cfg w file).pushes = [] ∧
    (runMain cfg w file).delivered = [] ∧
    ((runMain cfg w file).hits ≠ [] →
      (runMain cfg w file).crashed = true) := by
  by_cases hg : (gather w (sent0Of file) cfg.sources).1 = []
  · have hr : runMain cfg w file =
        ⟨(gather w (sent0Of file) cfg.sources).1, [], [],
         (gather w (sent0Of file) cfg.sources).2, file, false, false⟩ :=
      runFromGather_nil cfg w file _ hg
    rw [hr]
    exact ⟨rfl, rfl, fun h => absurd hg h⟩
  · have hr : runMain cfg w file =
        ⟨(gather w (sent0Of file) cfg.sources).1, [], [],
         (gather w (sent0Of file) cfg.sources).2, file, false, true⟩ :=
      runFromGather_crash cfg w file _ hg
    rw [hr]
    exact ⟨rfl, rfl, fun _ => rfl⟩

/-- Witness for C6: the demo run finds a hit, yet pushes and delivers
nothing and crashes. -/
theorem C6_no_notification_ever_witness :
    (runMain cfgDemo wDemo none).hits ≠ [] ∧
    ((runMain cfgDemo wDemo none).pushes = [] ∧
     (runMain cfgDemo wDemo none).delivered = [] ∧
     ((runMain cfgDemo wDemo none).hits ≠ [] →
       (runMain cfgDemo wDemo none).crashed = true)) :=
  ⟨by decide, C6_no_notification_ever cfgDemo wDemo none⟩

/-! ### C7: listing-source anchor extraction -/

/-- Do two items collide on the dedup key? -/
def sameKey (x y : Item) : Prop := keyOf x = keyOf y

/-- First-occurrence deduplication as the spec words it: walk the list in
order, keep an item only if no kept item already has its `(title, url)`
key.  This is the spec-side reference definition, to be compared with the
source's Python-dict semantics `pyDictDedup`. -/
def dedupFirstSpec (l : List Item) : List Item :=
  l.foldl (fun acc x => if acc.any (fun y => keyOf y = keyOf x) then acc
                        else acc ++ [x]) []

/-- All keys in a list are pairwise distinct. -/
def KeysNodup (l : List Item) : Prop :=
  l.Pairwise (fun a b => keyOf a ≠ keyOf b)

theorem dedupFirstSpec_go_mem :
    ∀ (todo acc : List Item) (z : Item),
      z ∈ todo.foldl (fun acc x => if acc.any (fun y => keyOf y = keyOf x)
            then acc else acc ++ [x]) acc →
        z ∈ acc ∨ z ∈ todo
  | [], acc, z, h => Or.inl h
  | x :: todo, acc, z, h => by
      rw [List.foldl_cons] at h
      rcases dedupFirstSpec_go_mem todo _ z h with h1 | h1
      · by_cases hx : (acc.any (fun y => keyOf y = keyOf x)) = true
        · rw [if_pos hx] at h1
          exact Or.inl h1
        · rw [if_neg hx] at h1
          rcases List.mem_append.mp h1 with h2 | h2
          · exact Or.inl h2
          · exact Or.inr (by simp [List.mem_singleton.mp h2])
      · exact Or.inr (by simp [h1])

theorem dedupFirstSpec_go_nodup :
    ∀ (todo acc : List Item), KeysNodup acc →
      KeysNodup (todo.foldl (fun acc x =>
        if acc.any (fun y => keyOf y = keyOf x) then acc else acc ++ [x]) acc)
  | [], _, h => h
  | x :: todo, acc, h => by
      rw [List.foldl_cons]
      by_cases hx : (acc.any (fun y => keyOf y = keyOf x)) = true
      · rw [if_pos hx]
        exact dedupFirstSpec_go_nodup todo acc h
      · rw [if_neg hx]
        refine dedupFirstSpec_go_nodup todo (acc ++ [x]) ?_
        rw [KeysNodup, List.pairwise_append]
        refine ⟨h, List.pairwise_singleton _ _, ?_⟩
        intro a ha b hb
        rw [List.mem_singleton.mp hb]
        simp only [List.any_eq_true, decide_eq_true_eq] at hx
        push_neg at hx
        exact hx a ha

theorem dedupFirstSpec_mem (l : List Item) (z : Item)
    (h : z ∈ dedupFirstSpec l) : z ∈ l := by
  rcases dedupFirstSpec_go_mem l [] z h with h1 | h1
  · exact absurd h1 (List.not_mem_nil z)
  · exact h1

theorem dedupFirstSpec_keysNodup (l : List Item) :
    KeysNodup (dedupFirstSpec l) :=
  dedupFirstSpec_go_nodup l [] (List.Pairwise.nil)

theorem any_map_keyPair (acc : List Item) (k : String × String) :
    ((acc.map fun v => (keyOf v, v)).any (fun p => p.1 = k)) =
      (acc.any (fun y => keyOf y = k)) := by
  induction acc with
  | nil => rfl
  | cons v rest ih => simp only [List.map_cons, List.any_cons, ih]

theorem pyDict_go_eq :
    ∀ (todo acc : List Item),
      (∀ x ∈ todo, ∀ y ∈ acc, keyOf x = keyOf y → x = y) →
      (∀ x ∈ todo, ∀ y ∈ todo, keyOf x = keyOf y → x = y) →
      todo.foldl pyDictInsert (acc.map fun v => (keyOf v, v)) =
        (todo.foldl (fun acc x =>
          if acc.any (fun y => keyOf y = keyOf x) then acc else acc ++ [x])
          acc).map fun v => (keyOf v, v)
  | [], _, _, _ => rfl
  | x :: todo, acc, h1, h2 => by
      rw [List.foldl_cons, List.foldl_cons]
      have hany := any_map_keyPair acc (keyOf x)
      by_cases hx : (acc.any (fun y => keyOf y = keyOf x)) = true
      · have hupd : pyDictInsert (acc.map fun v => (keyOf v, v)) x =
            acc.map fun v => (keyOf v, v) := by
          unfold pyDictInsert
          rw [if_pos (by rw [hany]; exact hx)]
          rw [List.map_map]
          refine List.map_congr_left ?_
          intro v hv
          by_cases hkv : keyOf v = keyOf x
          · have : x = v :=
              h1 x (by simp) v hv hkv.symm
            simp [Function.comp, hkv, this]
          · simp [Function.comp, hkv]
        rw [hupd, if_pos hx]
        exact pyDict_go_eq todo acc
          (fun a ha y hy => h1 a (by simp [ha]) y hy)
          (fun a ha b hb => h2 a (by simp [ha]) b (by simp [hb]))
      · have hupd : pyDictInsert (acc.map fun v => (keyOf v, v)) x =
            (acc ++ [x]).map fun v => (keyOf v, v) := by
          unfold pyDictInsert
          rw [if_neg (by rw [hany]; exact hx)]
          rw [List.map_append]
          rfl
        rw [hupd, if_neg hx]
        refine pyDict_go_eq todo (acc ++ [x]) ?_ ?_
        · intro a ha y hy hk
          rcases List.mem_append.mp hy with h3 | h3
          · exact h1 a (by simp [ha]) y h3 hk
          · rw [List.mem_singleton.mp h3] at hk ⊢
            exact h2 a (by simp [ha]) x (by simp) hk
        · intro a ha b hb
          exact h2 a (by simp [ha]) b (by simp [hb])

theorem pyDictDedup_eq_first (l : List Item)
    (hinj : ∀ x ∈ l, ∀ y ∈ l, keyOf x = keyOf y → x = y) :
    pyDictDedup l = dedupFirstSpec l := by
  unfold pyDictDedup dedupFirstSpec
  have h0 := pyDict_go_eq l []
    (fun x hx y hy => absurd hy (List.not_mem_nil y)) hinj
  rw [show (([] : List ((String × String) × Item))) =
      ([] : List Item).map (fun v => (keyOf v, v)) from rfl, h0]
  rw [List.map_map]
  rw [show (Prod.snd ∘ fun v : Item => (keyOf v, v)) = id from rfl, List.map_id]

theorem anchorItems_eq (uj : String → String → String) (url : String)
    (base : Option String) (anchors : List Anchor) :
    anchorItems uj url base anchors =
      ((anchors.take MAX_ITEMS_PER_SOURCE).filter
        (fun a => ¬(a.text = "" ∨ a.href = ""))).map
        (fun a => ⟨a.text, uj (base.getD url) a.href, ""⟩) := by
  unfold anchorItems
  induction anchors.take MAX_ITEMS_PER_SOURCE with
  | nil => rfl
  | cons a rest ih =>
      rw [List.foldr_cons, List.filter_cons]
      by_cases ha : a.text = "" ∨ a.href = ""
      · rw [if_pos ha,
          if_neg (by simp only [decide_eq_true_eq]; exact fun hc => hc ha)]
        exact ih
      · rw [if_neg ha, if_pos (by simp only [decide_eq_true_eq]; exact ha)]
        rw [List.map_cons, ih]

/-- C7: a successful listing fetch yields exactly the first-occurrence
`(title, resolved url)` deduplication of the selected anchors (capped at
the per-source maximum, anchors with empty text or missing href skipped,
hrefs resolved against `base or url`); in particular each pair occurs at
most once, and every returned item comes from a kept anchor. -/
theorem C7_fetch_html_dedup (w : World) (url sel : String)
    (base : Option String) (anchors : List Anchor)
    (h : w.listing url sel = Except.ok anchors) :
    fetch_html w url sel base = Except.ok (dedupFirstSpec
      (((anchors.take MAX_ITEMS_PER_SOURCE).filter
        (fun a => ¬(a.text = "" ∨ a.href = ""))).map
        (fun a => ⟨a.text, w.urljoin (base.getD url) a.href, ""⟩))) ∧
    (∀ items, fetch_html w url sel base = Except.ok items →
       KeysNodup items ∧
       ∀ it ∈ items, ∃ a ∈ anchors.take MAX_ITEMS_PER_SOURCE,
         a.text ≠ "" ∧ a.href ≠ "" ∧
         it = ⟨a.text, w.urljoin (base.getD url) a.href, ""⟩) := by
  have hinj : ∀ x ∈ ((anchors.take MAX_ITEMS_PER_SOURCE).filter
        (fun a => ¬(a.text = "" ∨ a.href = ""))).map
        (fun a => ⟨a.text, w.urljoin (base.getD url) a.href, ""⟩),
      ∀ y ∈ ((anchors.take MAX_ITEMS_PER_SOURCE).filter
        (fun a => ¬(a.text = "" ∨ a.href = ""))).map
        (fun a => ⟨a.text, w.urljoin (base.getD url) a.href, ""⟩),
      keyOf x = keyOf y → x = y := by
    intro x hx y hy hk
    obtain ⟨a, _, rfl⟩ := List.mem_map.mp hx
    obtain ⟨b, _, rfl⟩ := List.mem_map.mp hy
    unfold keyOf at hk
    simp only [Prod.mk.injEq] at hk
    simp [hk.1, hk.2]
  have hfetch : fetch_html w url sel base = Except.ok (dedupFirstSpec
      (((anchors.take MAX_ITEMS_PER_SOURCE).filter
        (fun a => ¬(a.text = "" ∨ a.href = ""))).map
        (fun a => ⟨a.text, w.urljoin (base.getD url) a.href, ""⟩))) := by
    unfold fetch_html
    rw [h]
    dsimp only
    rw [anchorItems_eq, pyDictDedup_eq_first _ hinj]
  refine ⟨hfetch, ?_⟩
  intro items hitems
  rw [hfetch] at hitems
  have hsame : items = dedupFirstSpec
      (((anchors.take MAX_ITEMS_PER_SOURCE).filter
        (fun a => ¬(a.text = "" ∨ a.href = ""))).map
        (fun a => ⟨a.text, w.urljoin (base.getD url) a.href, ""⟩)) := by
    cases hitems
    rfl
  subst hsame
  refine ⟨dedupFirstSpec_keysNodup _, ?_⟩
  intro it hit
  have hmem := dedupFirstSpec_mem _ _ hit
  obtain ⟨a, ha, rfl⟩ := List.mem_map.mp hmem
  have ha2 := List.of_mem_filter ha
  simp only [decide_not, Bool.not_eq_true', decide_eq_false_iff_not] at ha2
  push_neg at ha2
  exact ⟨a, List.mem_of_mem_filter ha, ha2.1, ha2.2, rfl⟩

/-- A world whose listing fetch returns four anchors: a duplicate pair, an
empty-text anchor, and a distinct-title anchor sharing an href. -/
def wListing : World :=
  ⟨true, fun _ => Except.ok [],
   fun _ _ => Except.ok [⟨"t", "/x"⟩, ⟨"", "/y"⟩, ⟨"t", "/x"⟩, ⟨"u", "/x"⟩],
   fun b h => b ++ h, fun _ => Except.error "x", fun _ _ => true,
   "2025-01-01"⟩

/-- Witness for C7: a listing with a duplicate anchor and an anchor with
empty text. -/
theorem C7_fetch_html_dedup_witness :
    (wListing.listing "https://l/p" "a" =
      Except.ok [⟨"t", "/x"⟩, ⟨"", "/y"⟩, ⟨"t", "/x"⟩, ⟨"u", "/x"⟩]) ∧
    fetch_html wListing "https://l/p" "a" (some "https://b") =
      Except.ok (dedupFirstSpec
        ((([⟨"t", "/x"⟩, ⟨"", "/y"⟩, ⟨"t", "/x"⟩,
            (⟨"u", "/x"⟩ : Anchor)].take MAX_ITEMS_PER_SOURCE).filter
          (fun a => ¬(a.text = "" ∨ a.href = ""))).map
          (fun a => ⟨a.text,
            wListing.urljoin ((some "https://b").getD "https://l/p") a.href,
            ""⟩)) ) ∧
    fetch_html wListing "https://l/p" "a" (some "https://b") =
      Except.ok [⟨"t", "https://b/x", ""⟩, ⟨"u", "https://b/x", ""⟩] :=
  ⟨rfl,
   (C7_fetch_html_dedup wListing "https://l/p" "a" (some "https://b")
     [⟨"t", "/x"⟩, ⟨"", "/y"⟩, ⟨"t", "/x"⟩, ⟨"u", "/x"⟩] rfl).1,
   by
     rw [(C7_fetch_html_dedup wListing "https://l/p" "a" (some "https://b")
       [⟨"t", "/x"⟩, ⟨"", "/y"⟩, ⟨"t", "/x"⟩, ⟨"u", "/x"⟩] rfl).1]
     rfl⟩

end TaxWatch
